import Mathlib

/-!
Verification of the `GProfileBuilder` profile-building/deduplication engine
(`src/trace_processor/util/profile_builder.h`).

The header declares the builder's data model (Location, MappingKey, Mapping,
Function, Line, DebugInfo, StringTable) and operations
(`InternString`, `WriteLocationIfNeeded`, `WriteMappingIfNeeded`,
`WriteFunctionIfNeeded`, `AddSample`, `Build`, `Finalize`,
`GuessMainBinary`).  The hash functors and `operator==` of the
deduplication key types are defined inline in the header and are embedded
from that source.  The member-function bodies live in a `.cc` translation
unit that is not part of the sources; those operations are modelled from
the specification (each such definition carries a `Modelled from the
spec:` note).
-/

set_option autoImplicit false

namespace ProfileBuilder

/-- Lookup in an association list; models a `std::unordered_map` query
(first match wins; insertion is modelled by consing at the front, which is
only ever done when the key is absent). -/
def lookupAssoc {α β : Type} [DecidableEq α] (k : α) : List (α × β) → Option β
  | [] => none
  | (a, b) :: rest => if a = k then some b else lookupAssoc k rest

theorem lookupAssoc_cons {α β : Type} [DecidableEq α] (k a : α) (b : β)
    (l : List (α × β)) :
    lookupAssoc k ((a, b) :: l) = if a = k then some b else lookupAssoc k l := rfl

theorem lookupAssoc_cons_self {α β : Type} [DecidableEq α] (k : α) (b : β)
    (l : List (α × β)) : lookupAssoc k ((k, b) :: l) = some b := by
  simp [lookupAssoc]

theorem lookupAssoc_cons_ne {α β : Type} [DecidableEq α] {k a : α} (b : β)
    (l : List (α × β)) (h : a ≠ k) :
    lookupAssoc k ((a, b) :: l) = lookupAssoc k l := by
  simp [lookupAssoc, h]

theorem lookupAssoc_eq_none_iff {α β : Type} [DecidableEq α] (k : α)
    (l : List (α × β)) :
    lookupAssoc k l = none ↔ ∀ b, (k, b) ∉ l := by
  induction l with
  | nil => simp [lookupAssoc]
  | cons p rest ih =>
    obtain ⟨a, b⟩ := p
    by_cases h : a = k
    · subst h
      rw [lookupAssoc_cons_self]
      constructor
      · intro hc
        exact Option.noConfusion hc
      · intro hall
        exact absurd (List.mem_cons_self (a, b) rest) (hall b)
    · simp only [lookupAssoc_cons_ne b rest h, ih, List.mem_cons]
      constructor
      · intro hall b' hmem
        rcases hmem with hmem | hmem
        · exact h (congrArg Prod.fst hmem).symm
        · exact hall b' hmem
      · intro hall b' hmem
        exact hall b' (Or.inr hmem)

/-- Keys of an association list are pairwise distinct (the map invariant of
the `std::unordered_map` dedup tables: no two staged entities share a key). -/
def nodupKeys {α β : Type} (l : List (α × β)) : Prop :=
  (l.map Prod.fst).Nodup

instance {α β : Type} [DecidableEq α] (l : List (α × β)) :
    Decidable (nodupKeys l) := by
  unfold nodupKeys
  infer_instance

/- ### String table (spec §4.1, header lines 63-96) -/

/-- State of `GProfileBuilder::StringTable`.  `table` is the output string
table (index = position); `seenStrings` models `seen_strings_`
(text → index; the source keys this map by a 64-bit hash of the text, we
idealise the hash as injective); `seenPoolIds` models
`seen_string_pool_ids_` (`StringPool::Id` → index). -/
structure StringTableState where
  table : List String
  seenStrings : List (String × Nat)
  seenPoolIds : List (Nat × Nat)
  deriving DecidableEq, Repr

/-- Modelled from the spec: `StringTable::InternString(base::StringView)` is
declared at header line 75 but defined in the missing `.cc`.  Spec §4.1:
consult the hash-of-text cache first and only write a new string-table row
on a miss. -/
def internStr (s : String) (st : StringTableState) : Nat × StringTableState :=
  match lookupAssoc s st.seenStrings with
  | some i => (i, st)
  | none =>
      let i := st.table.length
      (i, { table := st.table ++ [s]
            seenStrings := (s, i) :: st.seenStrings
            seenPoolIds := st.seenPoolIds })

/-- Modelled from the spec: `StringTable::InternString(StringPool::Id)` is
declared at header line 80 but defined in the missing `.cc`.  Spec §4.1:
consult the pool-id cache first; on a miss resolve the text through the
pool and intern the resolved text (hashing the text, not the pool id), then
record the pool id.  A dangling pool id resolves to the empty string
(spec §7: missing metadata is tolerated as empty-string references). -/
def internPoolId (pool : Nat → Option String) (pid : Nat)
    (st : StringTableState) : Nat × StringTableState :=
  match lookupAssoc pid st.seenPoolIds with
  | some i => (i, st)
  | none =>
      let s := (pool pid).getD ""
      let r := internStr s st
      (r.1, { r.2 with seenPoolIds := (pid, r.1) :: r.2.seenPoolIds })

/-- Initial string-table state: the empty string is written at index 0
(`kEmptyStringIndex`, header line 55; spec §3: index 0 is reserved for the
empty string). -/
def initStringTable : StringTableState :=
  { table := [""], seenStrings := [("", 0)], seenPoolIds := [] }

/-- Well-formedness of a string-table state relative to a string pool:
the empty string is cached at index 0, and every cached pool id agrees
with the index cached for the text it resolves to. -/
def STWF (pool : Nat → Option String) (st : StringTableState) : Prop :=
  lookupAssoc "" st.seenStrings = some 0 ∧
  ∀ pid i, lookupAssoc pid st.seenPoolIds = some i →
    lookupAssoc ((pool pid).getD "") st.seenStrings = some i

theorem internStr_lookup_self (s : String) (st : StringTableState) :
    lookupAssoc s (internStr s st).2.seenStrings = some (internStr s st).1 := by
  unfold internStr
  cases h : lookupAssoc s st.seenStrings with
  | some i => simpa using h
  | none => simp [lookupAssoc_cons_self]

theorem internStr_of_lookup {s : String} {st : StringTableState} {i : Nat}
    (h : lookupAssoc s st.seenStrings = some i) : internStr s st = (i, st) := by
  unfold internStr
  rw [h]

theorem internStr_preserves_lookup {s : String} {st : StringTableState} {i : Nat}
    (t : String) (h : lookupAssoc s st.seenStrings = some i) :
    lookupAssoc s (internStr t st).2.seenStrings = some i := by
  unfold internStr
  cases ht : lookupAssoc t st.seenStrings with
  | some j => simpa
  | none =>
      have hne : t ≠ s := by
        intro he
        rw [he, h] at ht
        exact Option.noConfusion ht
      simpa [lookupAssoc_cons_ne _ _ hne]

theorem internStr_seenPoolIds (s : String) (st : StringTableState) :
    (internStr s st).2.seenPoolIds = st.seenPoolIds := by
  unfold internStr
  cases lookupAssoc s st.seenStrings <;> simp

theorem internStr_fst_congr (s : String) (st st' : StringTableState)
    (ht : st.table = st'.table) (hs : st.seenStrings = st'.seenStrings) :
    (internStr s st).1 = (internStr s st').1 := by
  unfold internStr
  rw [hs]
  cases lookupAssoc s st'.seenStrings with
  | some i => rfl
  | none => simp [ht]

theorem internPoolId_of_cached {pool : Nat → Option String} {pid : Nat}
    {st : StringTableState} {i : Nat}
    (h : lookupAssoc pid st.seenPoolIds = some i) :
    internPoolId pool pid st = (i, st) := by
  unfold internPoolId
  rw [h]

theorem internPoolId_miss_fst {pool : Nat → Option String} {pid : Nat}
    {st : StringTableState} (h : lookupAssoc pid st.seenPoolIds = none) :
    (internPoolId pool pid st).1 = (internStr ((pool pid).getD "") st).1 := by
  unfold internPoolId
  rw [h]

theorem internPoolId_miss_snd {pool : Nat → Option String} {pid : Nat}
    {st : StringTableState} (h : lookupAssoc pid st.seenPoolIds = none) :
    (internPoolId pool pid st).2 =
      { (internStr ((pool pid).getD "") st).2 with
        seenPoolIds := (pid, (internStr ((pool pid).getD "") st).1) ::
          (internStr ((pool pid).getD "") st).2.seenPoolIds } := by
  unfold internPoolId
  rw [h]

/-- C3: for every string, interning it repeatedly returns the same
string-table index whether it is supplied as raw text or as a string-pool
id that resolves to the same text, and the empty string always maps to
index 0.  The four conjuncts cover: raw text then raw text again; raw text
then the pool id; the pool id then raw text; and the empty string. -/
theorem intern_stable (pool : Nat → Option String) (st : StringTableState)
    (s : String) (pid : Nat) (hWF : STWF pool st)
    (hres : (pool pid).getD "" = s) :
    (internStr s (internStr s st).2).1 = (internStr s st).1 ∧
    (internPoolId pool pid (internStr s st).2).1 = (internStr s st).1 ∧
    (internStr s (internPoolId pool pid st).2).1 = (internPoolId pool pid st).1 ∧
    (internStr "" st).1 = 0 := by
  obtain ⟨hWFe, hWFp⟩ := hWF
  refine ⟨?_, ?_, ?_, ?_⟩
  · rw [internStr_of_lookup (internStr_lookup_self s st)]
  · cases hp : lookupAssoc pid st.seenPoolIds with
    | some j =>
        have hp2 : lookupAssoc pid (internStr s st).2.seenPoolIds = some j := by
          rw [internStr_seenPoolIds]
          exact hp
        have hj : lookupAssoc s st.seenStrings = some j := by
          rw [← hres]
          exact hWFp pid j hp
        rw [internPoolId_of_cached hp2, internStr_of_lookup hj]
    | none =>
        have hp2 : lookupAssoc pid (internStr s st).2.seenPoolIds = none := by
          rw [internStr_seenPoolIds]
          exact hp
        rw [internPoolId_miss_fst hp2, hres,
          internStr_of_lookup (internStr_lookup_self s st)]
  · cases hp : lookupAssoc pid st.seenPoolIds with
    | some j =>
        have hj : lookupAssoc s st.seenStrings = some j := by
          rw [← hres]
          exact hWFp pid j hp
        rw [internPoolId_of_cached hp, internStr_of_lookup hj]
    | none =>
        rw [internPoolId_miss_snd hp, internPoolId_miss_fst hp, hres]
        exact (internStr_fst_congr s
          { table := (internStr s st).2.table
            seenStrings := (internStr s st).2.seenStrings
            seenPoolIds := (pid, (internStr s st).1) ::
              (internStr s st).2.seenPoolIds }
          (internStr s st).2 rfl rfl).trans
          (by rw [internStr_of_lookup (internStr_lookup_self s st)])
  · rw [internStr_of_lookup hWFe]

/-- Witness for C3 at a concrete pool and the initial string-table state. -/
theorem intern_stable_witness :
    (internStr "abc" (internStr "abc" initStringTable).2).1 =
      (internStr "abc" initStringTable).1 ∧
    (internPoolId (fun _ => some "abc") 7 (internStr "abc" initStringTable).2).1 =
      (internStr "abc" initStringTable).1 ∧
    (internStr "abc" (internPoolId (fun _ => some "abc") 7 initStringTable).2).1 =
      (internPoolId (fun _ => some "abc") 7 initStringTable).1 ∧
    (internStr "" initStringTable).1 = 0 := by
  refine intern_stable (fun _ => some "abc") initStringTable "abc" 7 ⟨?_, ?_⟩ rfl
  · decide
  · intro pid i h
    simp [initStringTable, lookupAssoc] at h

/- ### Deduplication key types (header lines 98-212) -/

/-- Embeds `GProfileBuilder::Line` (header lines 98-104): `uint64_t function_id`,
`int64_t line`. -/
structure Line where
  functionId : Nat
  line : Int
  deriving DecidableEq, Repr

/-- Embeds `GProfileBuilder::Location` (header lines 111-131): mapping id, relative
PC and the ordered line list. -/
structure Location where
  mappingId : Nat
  relPc : Nat
  lines : List Line
  deriving DecidableEq, Repr

/-- Embeds `GProfileBuilder::MappingKey` (header lines 138-160): the semantic
identity of a mapping — size, file offset, and
build-id-if-present-else-filename (a string-table index). -/
structure MappingKey where
  size : Nat
  fileOffset : Nat
  buildIdOrFilename : Nat
  deriving DecidableEq, Repr

/-- Embeds `GProfileBuilder::DebugInfo` (header lines 167-172). -/
structure DebugInfo where
  hasFunctions : Bool := false
  hasFilenames : Bool := false
  hasLineNumbers : Bool := false
  hasInlineFrames : Bool := false
  deriving DecidableEq, Repr, Inhabited

/-- Embeds `GProfileBuilder::Mapping` (header lines 174-193): a staged mapping
entity.  `filename` and `buildId` are string-table indices; `filenameStr`
keeps the raw filename text for the main-binary heuristic. -/
structure Mapping where
  memoryStart : Nat
  memoryLimit : Nat
  fileOffset : Nat
  filename : Nat
  buildId : Nat
  filenameStr : String
  debugInfo : DebugInfo := {}
  deriving DecidableEq, Repr, Inhabited

/-- Embeds `GProfileBuilder::Function` (header lines 195-212): name, system
(linkage) name and filename, all string-table indices. -/
structure Func where
  name : Nat
  systemName : Nat
  filename : Nat
  deriving DecidableEq, Repr

/- ### Read-only trace data (spec §6, external interfaces) -/

/-- One inline level of a symbol set (`lookup_symbol_set` row, spec §6). -/
structure SymbolRow where
  name : String
  systemName : String
  filename : String
  lineNumber : Int
  deriving DecidableEq, Repr

/-- A `stack_profile_frame` row (`lookup_frame`, spec §6): mapping row id,
relative PC, optional symbol-set reference, and the frame's (possibly
synthesized) name used when no symbol set resolves. -/
structure FrameRow where
  mappingRowId : Nat
  relPc : Nat
  symbolSetId : Option Nat
  name : String
  deriving DecidableEq, Repr

/-- A `stack_profile_mapping` row (`lookup_mapping`, spec §6). -/
structure MappingRow where
  memoryStart : Nat
  memoryLimit : Nat
  fileOffset : Nat
  buildId : Option String
  filename : String
  deriving DecidableEq, Repr

/-- Read-only access to the trace's tables (spec §6): call-sites resolve to
frame chains (leaf to root), frames to mappings and symbol sets. -/
structure TraceEnv where
  frames : Nat → Option FrameRow
  mappings : Nat → Option MappingRow
  symbolSets : Nat → Option (List SymbolRow)
  callsites : Nat → Option (List Nat)
  pool : Nat → Option String

/- ### Builder state and output -/

/-- A sample record: ordered location ids (leaf first) plus the caller's
value vector; written eagerly, never deduplicated (spec §3). -/
structure Sample where
  locationIds : List Nat
  values : List Int
  deriving DecidableEq, Repr

/-- One message written to the output `Profile` proto.  Serialization is
modelled as the ordered list of messages written. -/
inductive ProfileEvent where
  | mappingEv (id : Nat) (mainBinary : Bool) (debugInfo : DebugInfo)
  | functionEv (id : Nat) (name systemName filename : Nat)
  | locationEv (id : Nat) (mappingId : Nat) (relPc : Nat) (lines : List Line)
  | sampleTypeEv (typeIdx unitIdx : Nat)
  | sampleEv (locationIds : List Nat) (values : List Int)
  deriving DecidableEq, Repr

/-- State of a `GProfileBuilder` (header lines 254-284).  The
`std::unordered_map` members are modelled as association lists; the staged
dedup maps assign consecutive ids starting at 1 (header comment lines
275-279). -/
structure BuilderState where
  strings : StringTableState
  sampleTypes : List (Nat × Nat)
  numSampleTypes : Nat
  mappings : List Mapping
  mappingKeys : List (MappingKey × Nat)
  seenMappings : List (Nat × Nat)
  functions : List (Func × Nat)
  seenFunctions : List (Nat × Nat)
  locations : List (Location × Nat)
  seenLocations : List (Nat × Nat)
  cachedLocationIds : List (Nat × List Nat)
  samples : List Sample
  finalized : Bool
  output : Option (List ProfileEvent)
  deriving DecidableEq

/-- Truncation to an unsigned 64-bit value. -/
def u64 (n : Nat) : Nat := n % 2 ^ 64

/-- Unsigned 64-bit subtraction `a - b` with wraparound, as C++ `uint64_t`
arithmetic computes `memory_limit - memory_start`. -/
def u64sub (a b : Nat) : Nat := (u64 a + 2 ^ 64 - u64 b) % 2 ^ 64

/-- Insert-if-absent on a dedup map: return the existing id for the key, or
assign the next consecutive id (map size + 1, ids start at 1 per header
lines 275-279) and record the key. -/
def getOrCreate {κ : Type} [DecidableEq κ] (k : κ) (m : List (κ × Nat)) :
    Nat × List (κ × Nat) :=
  match lookupAssoc k m with
  | some id => (id, m)
  | none =>
      let id := m.length + 1
      (id, (k, id) :: m)

/-- The string whose interned index becomes
`MappingKey::build_id_or_filename`: the build id when present, else the
filename (spec §3). -/
def buildIdOrFilenameStr (row : MappingRow) : String :=
  match row.buildId with
  | some b => b
  | none => row.filename

/-- The `MappingKey` of a trace row once its build-id/filename string has
been interned at index `i` (spec §3). -/
def mappingKeyOf (row : MappingRow) (i : Nat) : MappingKey :=
  { size := u64sub row.memoryLimit row.memoryStart
    fileOffset := row.fileOffset
    buildIdOrFilename := i }

/-- Modelled from the spec: `GProfileBuilder::WriteMappingIfNeeded` (header
lines 234-235) is defined in the missing `.cc`.  Spec §4.2: consult the
trace-row cache, then resolve the row's build-id/filename through the
string interner, compute the identity key `(size, file_offset,
build-id-or-filename)`, and either reuse the staged mapping's id or stage a
new `Mapping` with a fresh id and empty `DebugInfo`. -/
def writeMappingIfNeeded (env : TraceEnv) (rowId : Nat) (st : BuilderState) :
    Option (Nat × BuilderState) :=
  match lookupAssoc rowId st.seenMappings with
  | some id => some (id, st)
  | none =>
      match env.mappings rowId with
      | none => none
      | some row =>
          match lookupAssoc (mappingKeyOf row (internStr (buildIdOrFilenameStr row) st.strings).1) st.mappingKeys with
          | some id =>
              some (id, { st with
                strings := (internStr (buildIdOrFilenameStr row) st.strings).2
                seenMappings := (rowId, id) :: st.seenMappings })
          | none =>
              let id := st.mappings.length + 1
              let r2 := internStr row.filename (internStr (buildIdOrFilenameStr row) st.strings).2
              let r3 := internStr (row.buildId.getD "") r2.2
              let m : Mapping :=
                { memoryStart := row.memoryStart
                  memoryLimit := row.memoryLimit
                  fileOffset := row.fileOffset
                  filename := r2.1
                  buildId := r3.1
                  filenameStr := row.filename }
              some (id, { st with
                strings := r3.2
                mappingKeys := (mappingKeyOf row (internStr (buildIdOrFilenameStr row) st.strings).1, id) :: st.mappingKeys
                seenMappings := (rowId, id) :: st.seenMappings
                mappings := st.mappings ++ [m] })

/-- Replace the element at index `n` using `f`; out-of-range indices leave
the list unchanged.  Models in-place mutation of the staged `mappings_`
vector through `GetMapping` (header lines 246-248). -/
def updateAt {α : Type} (n : Nat) (f : α → α) (l : List α) : List α :=
  match l.get? n with
  | some x => l.set n (f x)
  | none => l

/-- Apply `f` to the `DebugInfo` of the staged mapping with id `mid`
(mapping_id − 1 = index in the vector, header line 283). -/
def updateDebugInfo (mid : Nat) (f : DebugInfo → DebugInfo)
    (st : BuilderState) : BuilderState :=
  { st with mappings := updateAt (mid - 1) (fun m => { m with debugInfo := f m.debugInfo }) st.mappings }

/-- Modelled from the spec: `GProfileBuilder::WriteFunctionIfNeeded` for a
resolved symbol (header lines 227-229) is defined in the missing `.cc`.
Spec §4.3: intern name, system name and filename, dedup by the triple, and
OR the owning mapping's `has_functions`/`has_filenames` flags. -/
def writeFunctionFromSymbol (sym : SymbolRow) (mid : Nat)
    (st : BuilderState) : Nat × BuilderState :=
  let r1 := internStr sym.name st.strings
  let r2 := internStr sym.systemName r1.2
  let r3 := internStr sym.filename r2.2
  let key : Func := { name := r1.1, systemName := r2.1, filename := r3.1 }
  let r := getOrCreate key st.functions
  let st' := { st with strings := r3.2, functions := r.2 }
  (r.1, updateDebugInfo mid
    (fun di => { di with
      hasFunctions := di.hasFunctions || sym.name != ""
      hasFilenames := di.hasFilenames || sym.filename != "" }) st')

/-- Modelled from the spec: `GProfileBuilder::WriteFunctionIfNeeded` for a
frame without a symbol (header lines 230-232) is defined in the missing
`.cc`.  Spec §4.3: fall back to the frame's synthesized name and an empty
filename, dedup by the triple, and update `has_functions`. -/
def writeFunctionFromFrame (frame : FrameRow) (mid : Nat)
    (st : BuilderState) : Nat × BuilderState :=
  let r1 := internStr frame.name st.strings
  let r2 := internStr "" r1.2
  let key : Func := { name := r1.1, systemName := r1.1, filename := r2.1 }
  let r := getOrCreate key st.functions
  let st' := { st with strings := r2.2, functions := r.2 }
  (r.1, updateDebugInfo mid
    (fun di => { di with hasFunctions := di.hasFunctions || frame.name != "" })
    st')

/-- Write one `Line` per inline level of a symbol set, innermost first,
pairing each with its deduplicated function (spec §4.4). -/
def writeLines (rows : List SymbolRow) (mid : Nat) (st : BuilderState) :
    List Line × BuilderState :=
  match rows with
  | [] => ([], st)
  | r :: rest =>
      let f := writeFunctionFromSymbol r mid st
      let tail := writeLines rest mid f.2
      ({ functionId := f.1, line := r.lineNumber } :: tail.1, tail.2)

/-- Modelled from the spec: `GProfileBuilder::GetLinesForSymbolSetId`
(header lines 217-219) is defined in the missing `.cc`.  Spec §4.4: expand
the symbol set into Lines ordered innermost (deepest inline) first, and
update the owning mapping's `has_line_numbers` (any line present) and
`has_inline_frames` (more than one line) flags.  A missing symbol set is
tolerated as an empty line list (spec §7). -/
def linesFromRows (rows : List SymbolRow) (mid : Nat) (st : BuilderState) :
    List Line × BuilderState :=
  if rows.isEmpty then ([], (writeLines rows mid st).2)
  else
    ((writeLines rows mid st).1, updateDebugInfo mid
      (fun di => { di with
        hasLineNumbers := true
        hasInlineFrames := di.hasInlineFrames || decide (1 < rows.length) })
      (writeLines rows mid st).2)

/-- Modelled from the spec: dispatch of `GetLinesForSymbolSetId` on the
optional symbol-set reference (see `linesFromRows` for the expansion). -/
def getLinesForSymbolSetId (env : TraceEnv) (ssid : Option Nat) (mid : Nat)
    (st : BuilderState) : List Line × BuilderState :=
  match ssid with
  | none => ([], st)
  | some sid =>
      match env.symbolSets sid with
      | none => ([], st)
      | some rows => linesFromRows rows mid st

/-- Modelled from the spec: `GProfileBuilder::GetLines` (header lines
221-223) is defined in the missing `.cc`.  Spec §4.4: use the symbol set's
lines when present; otherwise produce zero or one Line depending on whether
function-level resolution exists (a non-empty frame name). -/
def getLines (env : TraceEnv) (frame : FrameRow) (mid : Nat)
    (st : BuilderState) : List Line × BuilderState :=
  let r := getLinesForSymbolSetId env frame.symbolSetId mid st
  if r.1.isEmpty then
    if frame.name != "" then
      let f := writeFunctionFromFrame frame mid r.2
      ([{ functionId := f.1, line := 0 }], f.2)
    else ([], r.2)
  else r

/-- Resolve a frame to its `Location` identity key (mapping id, relative
PC, line list), staging any mapping/function entities this requires
(spec §4.4, the key-computation part of `WriteLocationIfNeeded`). -/
def resolveLocation (env : TraceEnv) (frameId : Nat) (st : BuilderState) :
    Option (Location × BuilderState) :=
  match env.frames frameId with
  | none => none
  | some frame =>
      match writeMappingIfNeeded env frame.mappingRowId st with
      | none => none
      | some (mid, st1) =>
          let r := getLines env frame mid st1
          some ({ mappingId := mid, relPc := frame.relPc, lines := r.1 }, r.2)

/-- Modelled from the spec: `GProfileBuilder::WriteLocationIfNeeded`
(header line 225) is defined in the missing `.cc`.  Spec §4.4: consult the
frame-row cache, otherwise resolve the frame's identity key and dedup by
`(mapping id, relative PC, line list)`. -/
def writeLocationIfNeeded (env : TraceEnv) (frameId : Nat)
    (st : BuilderState) : Option (Nat × BuilderState) :=
  match lookupAssoc frameId st.seenLocations with
  | some id => some (id, st)
  | none =>
      match resolveLocation env frameId st with
      | none => none
      | some (key, st1) =>
          let r := getOrCreate key st1.locations
          some (r.1, { st1 with
            locations := r.2
            seenLocations := (frameId, r.1) :: st1.seenLocations })

/-- Expand a frame chain (leaf to root) into location ids, failing on any
dangling reference (spec §7). -/
def foldWriteLocations (env : TraceEnv) :
    List Nat → BuilderState → Option (List Nat × BuilderState)
  | [], st => some ([], st)
  | fid :: rest, st =>
      match writeLocationIfNeeded env fid st with
      | none => none
      | some (id, st1) =>
          match foldWriteLocations env rest st1 with
          | none => none
          | some (ids, st2) => some (id :: ids, st2)

/-- Modelled from the spec: `GProfileBuilder::GetLocationIdsForCallsite`
(header lines 214-215) is defined in the missing `.cc`.  Spec §4.5: consult
the per-call-site cache of expanded location-id lists; on a miss walk the
call-site's frame chain (leaf to root) and cache the list. -/
def getLocationIds (env : TraceEnv) (csId : Nat) (st : BuilderState) :
    Option (List Nat × BuilderState) :=
  match lookupAssoc csId st.cachedLocationIds with
  | some ids => some (ids, st)
  | none =>
      match env.callsites csId with
      | none => none
      | some frameIds =>
          match foldWriteLocations env frameIds st with
          | none => none
          | some (ids, st1) =>
              some (ids, { st1 with
                cachedLocationIds := (csId, ids) :: st1.cachedLocationIds })

/-- Modelled from the spec: `GProfileBuilder::AddSample` (header line 47)
is defined in the missing `.cc`.  Spec §4.5: a no-op once finalized;
otherwise expand the call-site to location ids and append one sample record
with the values exactly as given (no value-count validation, spec §6). -/
def addSample (env : TraceEnv) (csId : Nat) (values : List Int)
    (st : BuilderState) : Option BuilderState :=
  if st.finalized then some st
  else
    match getLocationIds env csId st with
    | none => none
    | some (ids, st1) =>
        some { st1 with
          samples := st1.samples ++ [{ locationIds := ids, values := values }] }

/- ### Main-binary heuristic (header lines 180-182 and 250-252) -/

/-- Modelled from the spec: the shared-library path test used by
`Mapping::ComputeMainBinaryScore` (the `.cc` body is missing).  Spec §4.2
names "common shared-library path fragments (e.g. typical system library
directories)". -/
def isLibraryPath (s : String) : Bool :=
  (".so".data.reverse.isPrefixOf s.data.reverse) ||
    ("/system/".data.isPrefixOf s.data) ||
    ("/apex/".data.isPrefixOf s.data) ||
    ("/vendor/".data.isPrefixOf s.data) ||
    ("[".data.isPrefixOf s.data)

/-- Modelled from the spec: `Mapping::ComputeMainBinaryScore` (header lines
180-182) is defined in the missing `.cc`.  Spec §4.2: additive signals — a
non-empty filename and resolved functions score positively, a
library-looking path scores strongly negatively so that a bare shared
library never outranks a symbolized non-library mapping and never
qualifies on its own (exact weights are an implementation choice, spec
§9). -/
def computeMainBinaryScore (m : Mapping) : Int :=
  (if m.filenameStr ≠ "" then 10 else 0) +
    (if m.debugInfo.hasFunctions then 10 else 0) +
    (if isLibraryPath m.filenameStr then -1000 else 0)

/-- Scan staged mappings (ids assigned in staging order from `i`), keeping
the best positive score; ties keep the earlier (lower) id. -/
def pickBest : List Mapping → Nat → Option (Nat × Int) → Option (Nat × Int)
  | [], _, best => best
  | m :: rest, i, best =>
      let sc := computeMainBinaryScore m
      let best' :=
        match best with
        | none => if 0 < sc then some (i, sc) else none
        | some (bi, bs) => if bs < sc then some (i, sc) else some (bi, bs)
      pickBest rest (i + 1) best'

/-- Modelled from the spec: `GProfileBuilder::GuessMainBinary` (header
lines 250-252) is defined in the missing `.cc`.  Spec §4.2: score every
staged mapping and return the highest-scoring id (ties broken by lowest
id); if no mapping qualifies (no positive score), return none rather than
guessing a library. -/
def guessMainBinary (ms : List Mapping) : Option Nat :=
  (pickBest ms 1 none).map Prod.fst

/- ### Finalization and build (header lines 49-52, 236-244, 263) -/

/-- Modelled from the spec: `GProfileBuilder::Finalize` (header line 244)
is defined in the missing `.cc`.  Spec §4.6 finalization order: (1) run
the main-binary heuristic; (2) write every staged Mapping in ascending id
order with its DebugInfo flags and main-binary marker; (3) write every
staged Function in ascending id order; (4) write every staged Location in
ascending id order with its mapping id and Line list; (5) write the
sample-type header supplied at construction.  The dedup maps cons new
entries at the front, so reversing them yields ascending id order. -/
def finalizeEvents (st : BuilderState) : List ProfileEvent :=
  let main := guessMainBinary st.mappings
  ((List.range st.mappings.length).map fun i =>
      ProfileEvent.mappingEv (i + 1) (main = some (i + 1))
        ((st.mappings.getD i default).debugInfo)) ++
    (st.functions.reverse.map fun p =>
      ProfileEvent.functionEv p.2 p.1.name p.1.systemName p.1.filename) ++
    (st.locations.reverse.map fun p =>
      ProfileEvent.locationEv p.2 p.1.mappingId p.1.relPc p.1.lines) ++
    (st.sampleTypes.map fun p => ProfileEvent.sampleTypeEv p.1 p.2)

/-- Modelled from the spec: `GProfileBuilder::Build` (header lines 49-52)
is defined in the missing `.cc`.  Spec §4.6: idempotent — the first call
finalizes (samples were already written eagerly, then the staged tables
are flushed), caches the serialized result and sets the finalized flag;
subsequent calls return the cached bytes without re-deriving anything. -/
def build (st : BuilderState) : List ProfileEvent × BuilderState :=
  match st.output with
  | some o => (o, st)
  | none =>
      let o := (st.samples.map fun s =>
          ProfileEvent.sampleEv s.locationIds s.values) ++ finalizeEvents st
      (o, { st with finalized := true, output := some o })

/-- Modelled from the spec: the `GProfileBuilder` constructor (header lines
43-45).  Spec §4.6/§6: the builder is constructed with the sample-type
schema, whose name/unit strings are interned for the header written at
finalization; the string table starts with the empty string at index 0. -/
def mkBuilder (sampleTypes : List (String × String)) : BuilderState :=
  let r := sampleTypes.foldl
    (fun (acc : List (Nat × Nat) × StringTableState) p =>
      let rn := internStr p.1 acc.2
      let ru := internStr p.2 rn.2
      (acc.1 ++ [(rn.1, ru.1)], ru.2))
    ([], initStringTable)
  { strings := r.2
    sampleTypes := r.1
    numSampleTypes := sampleTypes.length
    mappings := []
    mappingKeys := []
    seenMappings := []
    functions := []
    seenFunctions := []
    locations := []
    seenLocations := []
    cachedLocationIds := []
    samples := []
    finalized := false
    output := none }

/- ### Hash functors of the dedup keys (header lines 112-121, 139-146,
196-202; embedded from the header source) -/

/-- One step of the hash combinator.  Modelled from the spec:
`perfetto::base::Hash` (`UpdateAll`/`digest`) is not among the sources;
spec §9 requires a value-based hashing contract over the composite key, so
the hasher is modelled as an FNV-1a-style fold over the sequence of values
fed to `UpdateAll`, reduced mod 2^64. -/
def hashCombine (h v : Nat) : Nat := ((h ^^^ v) * 1099511628211) % 2 ^ 64

/-- Digest of a sequence of updates (see `hashCombine`). -/
def hashDigest (vs : List Nat) : Nat := vs.foldl hashCombine 14695981039346656037

/-- The 64-bit representation of an `int64_t` value fed to the hasher. -/
def intRep (i : Int) : Nat := (i % (2 ^ 64 : Int)).toNat

/-- Embeds `Line::operator==` (header lines 101-103). -/
def lineEq (a b : Line) : Bool :=
  a.functionId == b.functionId && a.line == b.line

/-- Elementwise `std::vector<Line>` equality (header line 129). -/
def linesEq : List Line → List Line → Bool
  | [], [] => true
  | a :: as, b :: bs => lineEq a b && linesEq as bs
  | _, _ => false

/-- Embeds `Location::operator==` (header lines 127-130). -/
def locationEq (a b : Location) : Bool :=
  a.mappingId == b.mappingId && a.relPc == b.relPc && linesEq a.lines b.lines

/-- Embeds `MappingKey::operator==` (header lines 152-155). -/
def mappingKeyEq (a b : MappingKey) : Bool :=
  a.size == b.size && a.fileOffset == b.fileOffset &&
    a.buildIdOrFilename == b.buildIdOrFilename

/-- Embeds `Function::operator==` (header lines 208-211). -/
def funcEq (a b : Func) : Bool :=
  a.name == b.name && a.systemName == b.systemName && a.filename == b.filename

/-- Embeds `Location::Hash` (header lines 112-121): updates the hasher with
`mapping_id`, `rel_pc` and `lines.size()`, then with each line's
`function_id` and `line`. -/
def locationHash (loc : Location) : Nat :=
  hashDigest ([u64 loc.mappingId, u64 loc.relPc, loc.lines.length] ++
    loc.lines.flatMap fun l => [u64 l.functionId, intRep l.line])

/-- Embeds `MappingKey::Hash` (header lines 139-146): updates the hasher with
`size`, `file_offset` and `build_id_or_filename`. -/
def mappingKeyHash (k : MappingKey) : Nat :=
  hashDigest [u64 k.size, u64 k.fileOffset, u64 k.buildIdOrFilename]

/-- Embeds `Function::Hash` (header lines 196-202): updates the hasher with
`name`, `system_name` and `filename`. -/
def funcHash (k : Func) : Nat :=
  hashDigest [u64 k.name, u64 k.systemName, u64 k.filename]

/- ### Theorems -/

/-- A trivial trace environment used by concrete witnesses. -/
def trivialEnv : TraceEnv :=
  { frames := fun _ => none
    mappings := fun _ => none
    symbolSets := fun _ => none
    callsites := fun _ => none
    pool := fun _ => none }

/-- C4: Build is idempotent — for every builder state, calling Build twice
returns byte-identical output, the second call returning the cached result
(and leaving the state unchanged). -/
theorem build_idempotent (st : BuilderState) :
    build (build st).2 = ((build st).1, (build st).2) := by
  cases h : st.output with
  | some o => simp [build, h]
  | none => simp [build, h]

/-- C5: after the first Build call, every further AddSample call is a
non-fatal no-op (it returns the state unchanged rather than an error), and
a subsequent Build call returns the same output. -/
theorem addSample_after_build (env : TraceEnv) (cs : Nat) (v : List Int)
    (st : BuilderState) (hcons : st.output.isSome = true → st.finalized = true) :
    addSample env cs v (build st).2 = some (build st).2 ∧
    build (build st).2 = build st := by
  cases h : st.output with
  | some o =>
      have hfin : st.finalized = true := hcons (by rw [h]; rfl)
      constructor
      · simp [build, h, addSample, hfin]
      · simp [build, h]
  | none =>
      constructor
      · simp [build, h, addSample]
      · simp [build, h]

/-- Witness for C5 at a freshly constructed builder. -/
theorem addSample_after_build_witness :
    addSample trivialEnv 0 [] (build (mkBuilder [])).2 =
      some (build (mkBuilder [])).2 ∧
    build (build (mkBuilder [])).2 = build (mkBuilder []) :=
  addSample_after_build trivialEnv 0 [] (mkBuilder []) (by decide)

/-- C9: a value-count mismatch in AddSample raises no error — when the
builder is not finalized and the call-site resolves, the call completes
and a sample record is written with the values exactly as given, even
though the values vector length differs from the declared sample-type
count. -/
theorem addSample_len_mismatch (env : TraceEnv) (cs : Nat) (values : List Int)
    (st : BuilderState) (ids : List Nat) (st' : BuilderState)
    (hfin : st.finalized = false)
    (_hlen : values.length ≠ st.numSampleTypes)
    (hexp : getLocationIds env cs st = some (ids, st')) :
    addSample env cs values st =
      some { st' with
        samples := st'.samples ++ [{ locationIds := ids, values := values }] } := by
  simp [addSample, hfin, hexp]

/-- Witness for C9: a builder declaring one sample type receives a sample
with zero values on an empty call-site. -/
theorem addSample_len_mismatch_witness :
    addSample
      { trivialEnv with callsites := fun i => if i = 0 then some [] else none }
      0 [] (mkBuilder [("cpu", "nanoseconds")]) =
      some { (mkBuilder [("cpu", "nanoseconds")]) with
        cachedLocationIds := [(0, [])]
        samples := [{ locationIds := [], values := [] }] } :=
  addSample_len_mismatch
    { trivialEnv with callsites := fun i => if i = 0 then some [] else none }
    0 [] (mkBuilder [("cpu", "nanoseconds")]) []
    { (mkBuilder [("cpu", "nanoseconds")]) with cachedLocationIds := [(0, [])] }
    rfl (by decide) rfl

theorem lineEq_eq {a b : Line} (h : lineEq a b = true) : a = b := by
  cases a
  cases b
  simp only [lineEq, Bool.and_eq_true, beq_iff_eq] at h
  simp [h.1, h.2]

theorem linesEq_eq : ∀ {as bs : List Line}, linesEq as bs = true → as = bs
  | [], [], _ => rfl
  | a :: as, b :: bs, h => by
      simp only [linesEq, Bool.and_eq_true] at h
      rw [lineEq_eq h.1, linesEq_eq h.2]
  | [], _ :: _, h => by simp [linesEq] at h
  | _ :: _, [], h => by simp [linesEq] at h

theorem locationEq_eq {a b : Location} (h : locationEq a b = true) : a = b := by
  cases a
  cases b
  simp only [locationEq, Bool.and_eq_true, beq_iff_eq] at h
  obtain ⟨⟨h1, h2⟩, h3⟩ := h
  simp [h1, h2, linesEq_eq h3]

theorem mappingKeyEq_eq {a b : MappingKey} (h : mappingKeyEq a b = true) :
    a = b := by
  cases a
  cases b
  simp only [mappingKeyEq, Bool.and_eq_true, beq_iff_eq] at h
  simp [h.1.1, h.1.2, h.2]

theorem funcEq_eq {a b : Func} (h : funcEq a b = true) : a = b := by
  cases a
  cases b
  simp only [funcEq, Bool.and_eq_true, beq_iff_eq] at h
  simp [h.1.1, h.1.2, h.2]

/-- C10: the custom hash functors of the three deduplication key types
respect their `operator==` — equal Location, MappingKey or Function values
yield equal hash values, so the hash maps never split one semantic entity
into two. -/
theorem hash_respects_eq :
    (∀ a b : Location, locationEq a b = true → locationHash a = locationHash b) ∧
    (∀ a b : MappingKey, mappingKeyEq a b = true →
      mappingKeyHash a = mappingKeyHash b) ∧
    (∀ a b : Func, funcEq a b = true → funcHash a = funcHash b) := by
  refine ⟨fun a b h => ?_, fun a b h => ?_, fun a b h => ?_⟩
  · rw [locationEq_eq h]
  · rw [mappingKeyEq_eq h]
  · rw [funcEq_eq h]

/-- Witness for C10 at concrete equal key values. -/
theorem hash_respects_eq_witness :
    locationHash { mappingId := 1, relPc := 2, lines := [{ functionId := 3, line := 4 }] } =
      locationHash { mappingId := 1, relPc := 2, lines := [{ functionId := 3, line := 4 }] } ∧
    mappingKeyHash { size := 5, fileOffset := 6, buildIdOrFilename := 7 } =
      mappingKeyHash { size := 5, fileOffset := 6, buildIdOrFilename := 7 } ∧
    funcHash { name := 8, systemName := 9, filename := 10 } =
      funcHash { name := 8, systemName := 9, filename := 10 } :=
  ⟨hash_respects_eq.1 _ _ (by decide),
   hash_respects_eq.2.1 _ _ (by decide),
   hash_respects_eq.2.2 _ _ (by decide)⟩

theorem pickBest_none_of_nonpos :
    ∀ (ms : List Mapping) (i : Nat),
      (∀ m ∈ ms, computeMainBinaryScore m ≤ 0) → pickBest ms i none = none
  | [], _, _ => rfl
  | m :: rest, i, h => by
      have hm : computeMainBinaryScore m ≤ 0 := h m (List.mem_cons_self m rest)
      have : ¬(0 < computeMainBinaryScore m) := by omega
      simp only [pickBest, this, if_false]
      exact pickBest_none_of_nonpos rest (i + 1)
        (fun m' hm' => h m' (List.mem_cons_of_mem m hm'))

/-- C8: the main-binary heuristic prefers a mapping with resolved function
names and a non-library-looking path over a bare shared-library entry with
no symbols (in either staging order), and returns none when no staged
mapping has a positive score. -/
theorem guessMainBinary_spec (A B : Mapping)
    (hA1 : A.filenameStr ≠ "") (hA2 : isLibraryPath A.filenameStr = false)
    (hA3 : A.debugInfo.hasFunctions = true)
    (hB1 : isLibraryPath B.filenameStr = true)
    (hB2 : B.debugInfo.hasFunctions = false) :
    guessMainBinary [A, B] = some 1 ∧ guessMainBinary [B, A] = some 2 ∧
    ∀ ms : List Mapping,
      (∀ m ∈ ms, computeMainBinaryScore m ≤ 0) → guessMainBinary ms = none := by
  have hsA : computeMainBinaryScore A = 20 := by
    simp [computeMainBinaryScore, hA1, hA2, hA3]
  have hsB : computeMainBinaryScore B ≤ -990 := by
    unfold computeMainBinaryScore
    rw [hB1, hB2]
    by_cases hf : B.filenameStr = "" <;> simp [hf]
  refine ⟨?_, ?_, ?_⟩
  · have h1 : (0 : Int) < computeMainBinaryScore A := by omega
    have h2 : ¬(computeMainBinaryScore A < computeMainBinaryScore B) := by omega
    simp [guessMainBinary, pickBest, h1, h2]
  · have h1 : ¬((0 : Int) < computeMainBinaryScore B) := by omega
    have h2 : (0 : Int) < computeMainBinaryScore A := by omega
    simp [guessMainBinary, pickBest, h1, h2]
  · intro ms h
    simp [guessMainBinary, pickBest_none_of_nonpos ms 1 h]

/-- Witness for C8: a symbolized application binary versus a system
shared library. -/
theorem guessMainBinary_spec_witness :
    guessMainBinary
      [{ memoryStart := 0, memoryLimit := 4096, fileOffset := 0, filename := 1,
         buildId := 2, filenameStr := "/bin/app",
         debugInfo := { hasFunctions := true } },
       { memoryStart := 0, memoryLimit := 4096, fileOffset := 0, filename := 3,
         buildId := 4, filenameStr := "/system/lib64/libc.so" }] = some 1 ∧
    guessMainBinary
      [{ memoryStart := 0, memoryLimit := 4096, fileOffset := 0, filename := 3,
         buildId := 4, filenameStr := "/system/lib64/libc.so" },
       { memoryStart := 0, memoryLimit := 4096, fileOffset := 0, filename := 1,
         buildId := 2, filenameStr := "/bin/app",
         debugInfo := { hasFunctions := true } }] = some 2 ∧
    ∀ ms : List Mapping,
      (∀ m ∈ ms, computeMainBinaryScore m ≤ 0) → guessMainBinary ms = none :=
  guessMainBinary_spec
    { memoryStart := 0, memoryLimit := 4096, fileOffset := 0, filename := 1,
      buildId := 2, filenameStr := "/bin/app",
      debugInfo := { hasFunctions := true } }
    { memoryStart := 0, memoryLimit := 4096, fileOffset := 0, filename := 3,
      buildId := 4, filenameStr := "/system/lib64/libc.so" }
    (by decide) (by decide) rfl (by decide) rfl

theorem writeMapping_cached {env : TraceEnv} {rowId : Nat} {st : BuilderState}
    {id : Nat} (h : lookupAssoc rowId st.seenMappings = some id) :
    writeMappingIfNeeded env rowId st = some (id, st) := by
  unfold writeMappingIfNeeded
  rw [h]

theorem writeMapping_fresh (env : TraceEnv) (rowId : Nat) (st : BuilderState)
    (row : MappingRow)
    (hs : lookupAssoc rowId st.seenMappings = none)
    (he : env.mappings rowId = some row) :
    ∃ id st1, writeMappingIfNeeded env rowId st = some (id, st1) ∧
      lookupAssoc (mappingKeyOf row (internStr (buildIdOrFilenameStr row) st.strings).1)
        st1.mappingKeys = some id ∧
      lookupAssoc (buildIdOrFilenameStr row) st1.strings.seenStrings =
        some (internStr (buildIdOrFilenameStr row) st.strings).1 ∧
      st1.seenMappings = (rowId, id) :: st.seenMappings := by
  unfold writeMappingIfNeeded
  simp only [hs, he]
  cases hk : lookupAssoc
      (mappingKeyOf row (internStr (buildIdOrFilenameStr row) st.strings).1)
      st.mappingKeys with
  | some id =>
      refine ⟨id, _, rfl, ?_, ?_, rfl⟩
      · exact hk
      · exact internStr_lookup_self _ _
  | none =>
      refine ⟨st.mappings.length + 1, _, rfl, ?_, ?_, rfl⟩
      · exact lookupAssoc_cons_self _ _ _
      · exact internStr_preserves_lookup _
          (internStr_preserves_lookup _ (internStr_lookup_self _ _))

theorem writeMapping_hit (env : TraceEnv) (rowId : Nat) (st : BuilderState)
    (row : MappingRow) (i id : Nat)
    (hs : lookupAssoc rowId st.seenMappings = none)
    (he : env.mappings rowId = some row)
    (hstr : lookupAssoc (buildIdOrFilenameStr row) st.strings.seenStrings = some i)
    (hk : lookupAssoc (mappingKeyOf row i) st.mappingKeys = some id) :
    writeMappingIfNeeded env rowId st =
      some (id, { st with seenMappings := (rowId, id) :: st.seenMappings }) := by
  unfold writeMappingIfNeeded
  simp only [hs, he, internStr_of_lookup hstr]
  rw [hk]

/-- C2: for every pair of trace mapping rows with equal semantic key
(size = memory_limit − memory_start, file_offset,
build-id-if-present-else-filename), WriteMappingIfNeeded returns the same
mapping id — the start addresses are unconstrained, so they may differ. -/
theorem writeMapping_dedup (env : TraceEnv) (st : BuilderState)
    (r1id r2id : Nat) (r1 r2 : MappingRow)
    (h1 : env.mappings r1id = some r1) (h2 : env.mappings r2id = some r2)
    (hs1 : lookupAssoc r1id st.seenMappings = none)
    (hs2 : lookupAssoc r2id st.seenMappings = none)
    (hsize : u64sub r1.memoryLimit r1.memoryStart =
      u64sub r2.memoryLimit r2.memoryStart)
    (hoff : r1.fileOffset = r2.fileOffset)
    (hbof : buildIdOrFilenameStr r1 = buildIdOrFilenameStr r2) :
    ∃ id st1 st2, writeMappingIfNeeded env r1id st = some (id, st1) ∧
      writeMappingIfNeeded env r2id st1 = some (id, st2) := by
  obtain ⟨id, st1, hw1, hkey1, hstr1, hseen1⟩ :=
    writeMapping_fresh env r1id st r1 hs1 h1
  by_cases hr : r2id = r1id
  · subst hr
    refine ⟨id, st1, st1, hw1, ?_⟩
    apply writeMapping_cached
    rw [hseen1]
    exact lookupAssoc_cons_self _ _ _
  · have hs2' : lookupAssoc r2id st1.seenMappings = none := by
      rw [hseen1]
      rw [lookupAssoc_cons_ne _ _ (fun he' => hr he'.symm)]
      exact hs2
    have hstr2 : lookupAssoc (buildIdOrFilenameStr r2) st1.strings.seenStrings =
        some (internStr (buildIdOrFilenameStr r1) st.strings).1 := by
      rw [← hbof]
      exact hstr1
    have hkey2 : mappingKeyOf r2 (internStr (buildIdOrFilenameStr r1) st.strings).1 =
        mappingKeyOf r1 (internStr (buildIdOrFilenameStr r1) st.strings).1 := by
      unfold mappingKeyOf
      rw [hsize, hoff]
    exact ⟨id, st1, _, hw1,
      writeMapping_hit env r2id st1 r2
        (internStr (buildIdOrFilenameStr r1) st.strings).1 id hs2' h2 hstr2
        (by rw [hkey2]; exact hkey1)⟩

/-- First trace row of the C2 witness: a binary loaded at 0x1000. -/
def c2Row1 : MappingRow :=
  { memoryStart := 4096, memoryLimit := 8192, fileOffset := 0,
    buildId := some "bid", filename := "/bin/app" }

/-- Second trace row of the C2 witness: the same binary loaded at 0x5000. -/
def c2Row2 : MappingRow :=
  { memoryStart := 20480, memoryLimit := 24576, fileOffset := 0,
    buildId := some "bid", filename := "/bin/app" }

/-- Trace environment of the C2 witness. -/
def c2Env : TraceEnv :=
  { trivialEnv with
    mappings := fun i =>
      if i = 1 then some c2Row1 else if i = 2 then some c2Row2 else none }

/-- Witness for C2: two rows for the same binary loaded at different start
addresses collapse to one mapping id. -/
theorem writeMapping_dedup_witness :
    ∃ id st1 st2, writeMappingIfNeeded c2Env 1 (mkBuilder []) = some (id, st1) ∧
      writeMappingIfNeeded c2Env 2 st1 = some (id, st2) :=
  writeMapping_dedup c2Env (mkBuilder []) 1 2 c2Row1 c2Row2
    rfl rfl rfl rfl (by decide) rfl rfl

theorem lookupAssoc_none_not_mem_keys {α β : Type} [DecidableEq α] {k : α}
    {m : List (α × β)} (h : lookupAssoc k m = none) : k ∉ m.map Prod.fst := by
  intro hmem
  obtain ⟨⟨a, b⟩, hab, hfst⟩ := List.mem_map.mp hmem
  rw [lookupAssoc_eq_none_iff] at h
  exact h b (hfst ▸ hab)

theorem getOrCreate_lookup_self {κ : Type} [DecidableEq κ] (k : κ)
    (m : List (κ × Nat)) :
    lookupAssoc k (getOrCreate k m).2 = some (getOrCreate k m).1 := by
  unfold getOrCreate
  cases h : lookupAssoc k m with
  | some id => simpa using h
  | none => simp [lookupAssoc_cons_self]

theorem getOrCreate_nodup {κ : Type} [DecidableEq κ] (k : κ)
    (m : List (κ × Nat)) (h : nodupKeys m) : nodupKeys (getOrCreate k m).2 := by
  unfold getOrCreate
  cases hl : lookupAssoc k m with
  | some id => simpa using h
  | none =>
      simp only []
      unfold nodupKeys
      rw [List.map_cons, List.nodup_cons]
      exact ⟨lookupAssoc_none_not_mem_keys hl, h⟩

theorem getOrCreate_of_lookup {κ : Type} [DecidableEq κ] {k : κ}
    {m : List (κ × Nat)} {id : Nat} (h : lookupAssoc k m = some id) :
    getOrCreate k m = (id, m) := by
  unfold getOrCreate
  rw [h]

theorem writeMappingIfNeeded_locations {env : TraceEnv} {rowId : Nat}
    {st : BuilderState} {id : Nat} {st' : BuilderState}
    (h : writeMappingIfNeeded env rowId st = some (id, st')) :
    st'.locations = st.locations ∧ st'.seenLocations = st.seenLocations := by
  unfold writeMappingIfNeeded at h
  split at h
  · injection h with h2
    injection h2 with ha hb
    subst hb
    exact ⟨rfl, rfl⟩
  · split at h
    · exact Option.noConfusion h
    · split at h
      · injection h with h2
        injection h2 with ha hb
        subst hb
        exact ⟨rfl, rfl⟩
      · injection h with h2
        injection h2 with ha hb
        subst hb
        exact ⟨rfl, rfl⟩

theorem writeFunctionFromSymbol_locations (sym : SymbolRow) (mid : Nat)
    (st : BuilderState) :
    (writeFunctionFromSymbol sym mid st).2.locations = st.locations ∧
    (writeFunctionFromSymbol sym mid st).2.seenLocations = st.seenLocations :=
  ⟨rfl, rfl⟩

theorem writeFunctionFromFrame_locations (frame : FrameRow) (mid : Nat)
    (st : BuilderState) :
    (writeFunctionFromFrame frame mid st).2.locations = st.locations ∧
    (writeFunctionFromFrame frame mid st).2.seenLocations = st.seenLocations :=
  ⟨rfl, rfl⟩

theorem writeLines_locations :
    ∀ (rows : List SymbolRow) (mid : Nat) (st : BuilderState),
      (writeLines rows mid st).2.locations = st.locations ∧
      (writeLines rows mid st).2.seenLocations = st.seenLocations
  | [], _, _ => ⟨rfl, rfl⟩
  | r :: rest, mid, st => by
      have h1 := writeFunctionFromSymbol_locations r mid st
      have ih := writeLines_locations rest mid (writeFunctionFromSymbol r mid st).2
      exact ⟨ih.1.trans h1.1, ih.2.trans h1.2⟩

theorem linesFromRows_locations (rows : List SymbolRow) (mid : Nat)
    (st : BuilderState) :
    (linesFromRows rows mid st).2.locations = st.locations ∧
    (linesFromRows rows mid st).2.seenLocations = st.seenLocations := by
  have h := writeLines_locations rows mid st
  unfold linesFromRows
  by_cases he : rows.isEmpty = true
  · simp only [he, if_true]
    exact h
  · simp only [he, if_false]
    exact h

theorem getLinesForSymbolSetId_locations (env : TraceEnv) (ssid : Option Nat)
    (mid : Nat) (st : BuilderState) :
    (getLinesForSymbolSetId env ssid mid st).2.locations = st.locations ∧
    (getLinesForSymbolSetId env ssid mid st).2.seenLocations = st.seenLocations := by
  cases ssid with
  | none => exact ⟨rfl, rfl⟩
  | some sid =>
      have hred : getLinesForSymbolSetId env (some sid) mid st =
          (match env.symbolSets sid with
           | none => ([], st)
           | some rows => linesFromRows rows mid st) := rfl
      cases hrows : env.symbolSets sid with
      | none =>
          rw [hred, hrows]
          exact ⟨rfl, rfl⟩
      | some rows =>
          rw [hred, hrows]
          exact linesFromRows_locations rows mid st

theorem getLines_locations (env : TraceEnv) (frame : FrameRow) (mid : Nat)
    (st : BuilderState) :
    (getLines env frame mid st).2.locations = st.locations ∧
    (getLines env frame mid st).2.seenLocations = st.seenLocations := by
  unfold getLines
  have h := getLinesForSymbolSetId_locations env frame.symbolSetId mid st
  by_cases he : (getLinesForSymbolSetId env frame.symbolSetId mid st).1.isEmpty = true
  · simp only [he, if_true]
    by_cases hn : (frame.name != "") = true
    · simp only [hn, if_true]
      have h2 := writeFunctionFromFrame_locations frame mid
        (getLinesForSymbolSetId env frame.symbolSetId mid st).2
      exact ⟨h2.1.trans h.1, h2.2.trans h.2⟩
    · simp only [hn, if_false]
      exact h
  · simp only [he, if_false]
    exact h

theorem resolveLocation_locations {env : TraceEnv} {fid : Nat}
    {st : BuilderState} {key : Location} {st' : BuilderState}
    (h : resolveLocation env fid st = some (key, st')) :
    st'.locations = st.locations ∧ st'.seenLocations = st.seenLocations := by
  unfold resolveLocation at h
  split at h
  · exact Option.noConfusion h
  · split at h
    · exact Option.noConfusion h
    · rename_i xf frame heqf xm mid st1 heqm
      injection h with h2
      injection h2 with ha hb
      subst hb
      have h1 := getLines_locations env frame mid st1
      have h2m := writeMappingIfNeeded_locations heqm
      exact ⟨h1.1.trans h2m.1, h1.2.trans h2m.2⟩

theorem writeLocation_resolved {env : TraceEnv} {fid : Nat} {st : BuilderState}
    {key : Location} {stA : BuilderState}
    (hc : lookupAssoc fid st.seenLocations = none)
    (hr : resolveLocation env fid st = some (key, stA)) :
    writeLocationIfNeeded env fid st =
      some ((getOrCreate key stA.locations).1,
        { stA with
          locations := (getOrCreate key stA.locations).2
          seenLocations :=
            (fid, (getOrCreate key stA.locations).1) :: stA.seenLocations }) := by
  unfold writeLocationIfNeeded
  rw [hc, hr]

/-- C1: for every pair of frames whose resolved location triples (mapping
id, relative PC, ordered line list) are equal, WriteLocationIfNeeded
returns the same location id, and the staged location table keeps its
no-two-equal-triples invariant. -/
theorem writeLocation_dedup (env : TraceEnv) (st : BuilderState)
    (f1 f2 : Nat) (t : Location) (stA : BuilderState) (id1 : Nat)
    (st1 stB : BuilderState)
    (hc1 : lookupAssoc f1 st.seenLocations = none)
    (hc2 : lookupAssoc f2 st.seenLocations = none)
    (hr1 : resolveLocation env f1 st = some (t, stA))
    (hw1 : writeLocationIfNeeded env f1 st = some (id1, st1))
    (hr2 : resolveLocation env f2 st1 = some (t, stB)) :
    (∃ st2, writeLocationIfNeeded env f2 st1 = some (id1, st2)) ∧
    (nodupKeys st.locations →
      ∀ id2 st2, writeLocationIfNeeded env f2 st1 = some (id2, st2) →
        nodupKeys st2.locations) := by
  have hw1' := (writeLocation_resolved hc1 hr1).symm.trans hw1
  injection hw1' with h2
  injection h2 with hid hst
  subst hid
  subst hst
  have hA := resolveLocation_locations hr1
  have hB := resolveLocation_locations hr2
  have hlook : lookupAssoc t
      ((getOrCreate t stA.locations).2 : List (Location × Nat)) =
      some (getOrCreate t stA.locations).1 := getOrCreate_lookup_self t stA.locations
  have hnd1 : nodupKeys st.locations → nodupKeys (getOrCreate t stA.locations).2 := by
    intro hnd
    exact getOrCreate_nodup t stA.locations (hA.1 ▸ hnd)
  by_cases hf : f2 = f1
  · subst hf
    have hcache : lookupAssoc f2
        ((f2, (getOrCreate t stA.locations).1) :: stA.seenLocations) =
        some (getOrCreate t stA.locations).1 := lookupAssoc_cons_self _ _ _
    have hw2 : writeLocationIfNeeded env f2
        { stA with
          locations := (getOrCreate t stA.locations).2
          seenLocations :=
            (f2, (getOrCreate t stA.locations).1) :: stA.seenLocations } =
        some ((getOrCreate t stA.locations).1,
          { stA with
            locations := (getOrCreate t stA.locations).2
            seenLocations :=
              (f2, (getOrCreate t stA.locations).1) :: stA.seenLocations }) := by
      unfold writeLocationIfNeeded
      rw [hcache]
    refine ⟨⟨_, hw2⟩, ?_⟩
    intro hnd id2 st2 hh
    rw [hw2] at hh
    injection hh with hh2
    injection hh2 with ha hb
    subst hb
    exact hnd1 hnd
  · have hcacheB : lookupAssoc f2
        ((f1, (getOrCreate t stA.locations).1) :: stA.seenLocations) = none := by
      rw [lookupAssoc_cons_ne _ _ (fun he => hf he.symm), hA.2]
      exact hc2
    have hw2 := writeLocation_resolved hcacheB hr2
    have hlookB : lookupAssoc t stB.locations =
        some (getOrCreate t stA.locations).1 := by
      rw [hB.1]
      exact hlook
    have hG2 : getOrCreate t stB.locations =
        ((getOrCreate t stA.locations).1, stB.locations) :=
      getOrCreate_of_lookup hlookB
    rw [hG2] at hw2
    refine ⟨⟨_, hw2⟩, ?_⟩
    intro hnd id2 st2 hh
    rw [hw2] at hh
    injection hh with hh2
    injection hh2 with ha hb
    subst hb
    show nodupKeys stB.locations
    rw [hB.1]
    exact hnd1 hnd

/-- Frame rows of the C1 witness: two distinct frames with the same
mapping, relative PC and (fallback) symbolization. -/
def c1Env : TraceEnv :=
  { trivialEnv with
    frames := fun i =>
      if i = 1 then
        some { mappingRowId := 1, relPc := 64, symbolSetId := none, name := "foo" }
      else if i = 2 then
        some { mappingRowId := 1, relPc := 64, symbolSetId := none, name := "foo" }
      else none
    mappings := fun i => if i = 1 then some c2Row1 else none }

/-- The resolved triple of frame 1 in the C1 witness. -/
def c1T : Location :=
  ((resolveLocation c1Env 1 (mkBuilder [])).getD
    ({ mappingId := 0, relPc := 0, lines := [] }, mkBuilder [])).1

/-- The builder state after resolving frame 1 in the C1 witness. -/
def c1StA : BuilderState :=
  ((resolveLocation c1Env 1 (mkBuilder [])).getD
    ({ mappingId := 0, relPc := 0, lines := [] }, mkBuilder [])).2

/-- The location id of frame 1 in the C1 witness. -/
def c1Id1 : Nat :=
  ((writeLocationIfNeeded c1Env 1 (mkBuilder [])).getD (0, mkBuilder [])).1

/-- The builder state after writing frame 1's location in the C1 witness. -/
def c1St1 : BuilderState :=
  ((writeLocationIfNeeded c1Env 1 (mkBuilder [])).getD (0, mkBuilder [])).2

/-- The builder state after resolving frame 2 in the C1 witness. -/
def c1StB : BuilderState :=
  ((resolveLocation c1Env 2 c1St1).getD
    ({ mappingId := 0, relPc := 0, lines := [] }, mkBuilder [])).2

/-- Witness for C1: the second frame reuses the first frame's location id
and the staged locations stay duplicate-free. -/
theorem writeLocation_dedup_witness :
    (∃ st2, writeLocationIfNeeded c1Env 2 c1St1 = some (c1Id1, st2)) ∧
    (nodupKeys (mkBuilder []).locations →
      ∀ id2 st2, writeLocationIfNeeded c1Env 2 c1St1 = some (id2, st2) →
        nodupKeys st2.locations) :=
  writeLocation_dedup c1Env (mkBuilder []) 1 2 c1T c1StA c1Id1 c1St1 c1StB
    rfl rfl rfl rfl rfl

theorem set_getD {α : Type} :
    ∀ (l : List α) (n : Nat) (a d : α), n < l.length →
      (l.set n a).getD n d = a
  | [], n, _, _, h => absurd h (by simp)
  | x :: xs, 0, a, d, _ => rfl
  | x :: xs, n + 1, a, d, h => by
      show (xs.set n a).getD n d = a
      exact set_getD xs n a d (Nat.lt_of_succ_lt_succ h)

theorem updateAt_getD_ex {α : Type} (n : Nat) (f : α → α) (l : List α)
    (d : α) (h : n < l.length) : ∃ x, (updateAt n f l).getD n d = f x := by
  unfold updateAt
  cases hg : l.get? n with
  | none =>
      have := List.get?_eq_none.mp hg
      omega
  | some x => exact ⟨x, set_getD l n (f x) d h⟩

theorem updateAt_length {α : Type} (n : Nat) (f : α → α) (l : List α) :
    (updateAt n f l).length = l.length := by
  unfold updateAt
  cases l.get? n with
  | none => rfl
  | some x => exact List.length_set l n (f x)

theorem updateDebugInfo_getD (mid : Nat) (f : DebugInfo → DebugInfo)
    (st : BuilderState) (h : mid - 1 < st.mappings.length) :
    ∃ m0 : Mapping, (updateDebugInfo mid f st).mappings.getD (mid - 1) default =
      { m0 with debugInfo := f m0.debugInfo } := by
  obtain ⟨x, hx⟩ := updateAt_getD_ex (mid - 1)
    (fun m => { m with debugInfo := f m.debugInfo }) st.mappings default h
  exact ⟨x, hx⟩

theorem writeFunctionFromSymbol_mappings_length (sym : SymbolRow) (mid : Nat)
    (st : BuilderState) :
    (writeFunctionFromSymbol sym mid st).2.mappings.length = st.mappings.length :=
  updateAt_length (mid - 1) _ st.mappings

theorem writeLines_mappings_length :
    ∀ (rows : List SymbolRow) (mid : Nat) (st : BuilderState),
      (writeLines rows mid st).2.mappings.length = st.mappings.length
  | [], _, _ => rfl
  | r :: rest, mid, st => by
      have h1 := writeFunctionFromSymbol_mappings_length r mid st
      have ih := writeLines_mappings_length rest mid (writeFunctionFromSymbol r mid st).2
      exact ih.trans h1

/-- C7: a symbol set with 3 inline levels expands to a line list with
exactly 3 Lines in symbol-set order (innermost, i.e. deepest inline,
first), and the owning mapping's DebugInfo ends with both
has_line_numbers and has_inline_frames set true. -/
theorem getLines_three_inline (env : TraceEnv) (sid : Nat) (mid : Nat)
    (st : BuilderState) (r1 r2 r3 : SymbolRow)
    (hss : env.symbolSets sid = some [r1, r2, r3])
    (hmid : mid - 1 < st.mappings.length) :
    (getLinesForSymbolSetId env (some sid) mid st).1.length = 3 ∧
    (getLinesForSymbolSetId env (some sid) mid st).1.map Line.line =
      [r1.lineNumber, r2.lineNumber, r3.lineNumber] ∧
    ((getLinesForSymbolSetId env (some sid) mid st).2.mappings.getD
      (mid - 1) default).debugInfo.hasLineNumbers = true ∧
    ((getLinesForSymbolSetId env (some sid) mid st).2.mappings.getD
      (mid - 1) default).debugInfo.hasInlineFrames = true := by
  have hred : getLinesForSymbolSetId env (some sid) mid st =
      (match env.symbolSets sid with
       | none => ([], st)
       | some rows => linesFromRows rows mid st) := rfl
  rw [hred, hss]
  have hW : mid - 1 < (writeLines [r1, r2, r3] mid st).2.mappings.length := by
    rw [writeLines_mappings_length]
    exact hmid
  obtain ⟨m0, hm0⟩ := updateDebugInfo_getD mid
    (fun di => { di with
      hasLineNumbers := true
      hasInlineFrames := di.hasInlineFrames ||
        decide (1 < ([r1, r2, r3] : List SymbolRow).length) })
    (writeLines [r1, r2, r3] mid st).2 hW
  refine ⟨rfl, rfl, ?_, ?_⟩
  · have hfin : ((linesFromRows [r1, r2, r3] mid st).2.mappings.getD
        (mid - 1) default) =
        { m0 with debugInfo :=
          { m0.debugInfo with
            hasLineNumbers := true
            hasInlineFrames := m0.debugInfo.hasInlineFrames ||
              decide (1 < ([r1, r2, r3] : List SymbolRow).length) } } := hm0
    rw [hfin]
  · have hfin : ((linesFromRows [r1, r2, r3] mid st).2.mappings.getD
        (mid - 1) default) =
        { m0 with debugInfo :=
          { m0.debugInfo with
            hasLineNumbers := true
            hasInlineFrames := m0.debugInfo.hasInlineFrames ||
              decide (1 < ([r1, r2, r3] : List SymbolRow).length) } } := hm0
    rw [hfin]
    exact Bool.or_true _

/-- Builder state of the C7 witness: one staged mapping. -/
def c7St : BuilderState :=
  { mkBuilder [] with
    mappings := [{ memoryStart := 0, memoryLimit := 4096, fileOffset := 0,
                   filename := 0, buildId := 0, filenameStr := "/bin/app" }] }

/-- Trace environment of the C7 witness: one symbol set with 3 inline
levels. -/
def c7Env : TraceEnv :=
  { trivialEnv with
    symbolSets := fun i =>
      if i = 5 then
        some [{ name := "a", systemName := "a", filename := "f.cc", lineNumber := 10 },
              { name := "b", systemName := "b", filename := "f.cc", lineNumber := 20 },
              { name := "c", systemName := "c", filename := "f.cc", lineNumber := 30 }]
      else none }

/-- Witness for C7 at a concrete 3-level symbol set. -/
theorem getLines_three_inline_witness :
    (getLinesForSymbolSetId c7Env (some 5) 1 c7St).1.length = 3 ∧
    (getLinesForSymbolSetId c7Env (some 5) 1 c7St).1.map Line.line =
      [(10 : Int), 20, 30] ∧
    ((getLinesForSymbolSetId c7Env (some 5) 1 c7St).2.mappings.getD
      0 default).debugInfo.hasLineNumbers = true ∧
    ((getLinesForSymbolSetId c7Env (some 5) 1 c7St).2.mappings.getD
      0 default).debugInfo.hasInlineFrames = true :=
  getLines_three_inline c7Env 5 1 c7St
    { name := "a", systemName := "a", filename := "f.cc", lineNumber := 10 }
    { name := "b", systemName := "b", filename := "f.cc", lineNumber := 20 }
    { name := "c", systemName := "c", filename := "f.cc", lineNumber := 30 }
    rfl (by decide)

/-- Recognizer for mapping messages in the output. -/
def evIsMapping : ProfileEvent → Bool
  | .mappingEv _ _ _ => true
  | _ => false

/-- Recognizer for function messages in the output. -/
def evIsFunction : ProfileEvent → Bool
  | .functionEv _ _ _ _ => true
  | _ => false

/-- Recognizer for location messages in the output. -/
def evIsLocation : ProfileEvent → Bool
  | .locationEv _ _ _ _ => true
  | _ => false

/-- The id carried by a mapping message. -/
def evMappingId : ProfileEvent → Option Nat
  | .mappingEv i _ _ => some i
  | _ => none

/-- The id carried by a function message. -/
def evFunctionId : ProfileEvent → Option Nat
  | .functionEv i _ _ _ => some i
  | _ => none

/-- The id carried by a location message. -/
def evLocationId : ProfileEvent → Option Nat
  | .locationEv i _ _ _ => some i
  | _ => none

/-- Invariant of the dedup maps: entries are consed newest-first with
consecutive ids starting at 1, so the ids read `n, n-1, …, 1`. -/
abbrev idsDescending {κ : Type} (m : List (κ × Nat)) : Prop :=
  m.map Prod.snd = (List.range m.length).reverse.map (· + 1)

theorem map_succ_range (n : Nat) :
    (List.range n).map (· + 1) = List.range' 1 n := by
  rw [List.range'_eq_map_range]
  simp [Nat.add_comm]

theorem idsDescending_reverse {κ : Type} {m : List (κ × Nat)}
    (h : idsDescending m) :
    m.reverse.map Prod.snd = List.range' 1 m.length := by
  rw [List.map_reverse, h, List.map_reverse, List.reverse_reverse,
    map_succ_range]

theorem filterMap_map_eq_map {α β : Type} (f : α → ProfileEvent)
    (p : ProfileEvent → Option β) (q : α → β)
    (h : ∀ a, p (f a) = some (q a)) :
    ∀ l : List α, (l.map f).filterMap p = l.map q
  | [] => rfl
  | x :: xs => by
      rw [List.map_cons, List.filterMap_cons, h x, List.map_cons,
        filterMap_map_eq_map f p q h xs]

/-- C6: finalization writes, in order, the mapping block (ascending ids,
each with its DebugInfo and a main-binary marker equal to the heuristic's
verdict), then the function block (ascending ids), then the location block
(ascending ids, each referencing its staged mapping id and Line list), and
finally the sample-type header supplied at construction. -/
theorem finalize_order (st : BuilderState)
    (hf : idsDescending st.functions) (hl : idsDescending st.locations) :
    ∃ A B C D, finalizeEvents st = A ++ B ++ C ++ D ∧
      (∀ e ∈ A, evIsMapping e = true) ∧
      A.filterMap evMappingId = List.range' 1 st.mappings.length ∧
      (∀ i b di, ProfileEvent.mappingEv i b di ∈ A →
        (b = true ↔ guessMainBinary st.mappings = some i) ∧
        di = (st.mappings.getD (i - 1) default).debugInfo) ∧
      (∀ e ∈ B, evIsFunction e = true) ∧
      B.filterMap evFunctionId = List.range' 1 st.functions.length ∧
      (∀ e ∈ C, evIsLocation e = true) ∧
      C.filterMap evLocationId = List.range' 1 st.locations.length ∧
      (∀ i mid pc lines, ProfileEvent.locationEv i mid pc lines ∈ C →
        ({ mappingId := mid, relPc := pc, lines := lines }, i) ∈ st.locations) ∧
      D = st.sampleTypes.map fun p => ProfileEvent.sampleTypeEv p.1 p.2 := by
  refine ⟨(List.range st.mappings.length).map fun i =>
      ProfileEvent.mappingEv (i + 1)
        (guessMainBinary st.mappings = some (i + 1))
        ((st.mappings.getD i default).debugInfo),
    st.functions.reverse.map fun p : Func × Nat =>
      ProfileEvent.functionEv p.2 p.1.name p.1.systemName p.1.filename,
    st.locations.reverse.map fun p : Location × Nat =>
      ProfileEvent.locationEv p.2 p.1.mappingId p.1.relPc p.1.lines,
    st.sampleTypes.map fun p : Nat × Nat => ProfileEvent.sampleTypeEv p.1 p.2,
    rfl, ?_, ?_, ?_, ?_, ?_, ?_, ?_, ?_, rfl⟩
  · intro e he
    obtain ⟨i, hi, rfl⟩ := List.mem_map.mp he
    rfl
  · rw [filterMap_map_eq_map
      (fun i => ProfileEvent.mappingEv (i + 1)
        (guessMainBinary st.mappings = some (i + 1))
        ((st.mappings.getD i default).debugInfo))
      evMappingId (fun i => i + 1) (fun i => rfl), map_succ_range]
  · intro i b di hmem
    obtain ⟨j, hj, heq⟩ := List.mem_map.mp hmem
    injection heq with h1 h2 h3
    subst h1
    constructor
    · rw [← h2]
      exact decide_eq_true_iff
    · exact h3.symm
  · intro e he
    obtain ⟨p, hp, rfl⟩ := List.mem_map.mp he
    rfl
  · rw [filterMap_map_eq_map
      (fun p : Func × Nat =>
        ProfileEvent.functionEv p.2 p.1.name p.1.systemName p.1.filename)
      evFunctionId (fun p => p.2) (fun p => rfl)]
    exact idsDescending_reverse hf
  · intro e he
    obtain ⟨p, hp, rfl⟩ := List.mem_map.mp he
    rfl
  · rw [filterMap_map_eq_map
      (fun p : Location × Nat =>
        ProfileEvent.locationEv p.2 p.1.mappingId p.1.relPc p.1.lines)
      evLocationId (fun p => p.2) (fun p => rfl)]
    exact idsDescending_reverse hl
  · intro i mid pc lines hmem
    obtain ⟨⟨⟨pm, ppc, pl⟩, pid⟩, hp, heq⟩ := List.mem_map.mp hmem
    injection heq with h1 h2 h3 h4
    subst h1
    subst h2
    subst h3
    subst h4
    exact List.mem_reverse.mp hp

/-- Builder state of the C6 witness: one staged mapping, function and
location, one sample type. -/
def c6St : BuilderState :=
  { mkBuilder [("cpu", "nanoseconds")] with
    mappings := [{ memoryStart := 0, memoryLimit := 4096, fileOffset := 0,
                   filename := 0, buildId := 0, filenameStr := "/bin/app" }]
    functions := [({ name := 1, systemName := 1, filename := 0 }, 1)]
    locations := [({ mappingId := 1, relPc := 64, lines := [] }, 1)] }

/-- Witness for C6 at a concrete staged builder state. -/
theorem finalize_order_witness :
    ∃ A B C D, finalizeEvents c6St = A ++ B ++ C ++ D ∧
      (∀ e ∈ A, evIsMapping e = true) ∧
      A.filterMap evMappingId = List.range' 1 c6St.mappings.length ∧
      (∀ i b di, ProfileEvent.mappingEv i b di ∈ A →
        (b = true ↔ guessMainBinary c6St.mappings = some i) ∧
        di = (c6St.mappings.getD (i - 1) default).debugInfo) ∧
      (∀ e ∈ B, evIsFunction e = true) ∧
      B.filterMap evFunctionId = List.range' 1 c6St.functions.length ∧
      (∀ e ∈ C, evIsLocation e = true) ∧
      C.filterMap evLocationId = List.range' 1 c6St.locations.length ∧
      (∀ i mid pc lines, ProfileEvent.locationEv i mid pc lines ∈ C →
        ({ mappingId := mid, relPc := pc, lines := lines }, i) ∈ c6St.locations) ∧
      D = c6St.sampleTypes.map fun p => ProfileEvent.sampleTypeEv p.1 p.2 :=
  finalize_order c6St (by decide) (by decide)

end ProfileBuilder
